import Mathlib

/-!
Verification of `src/weatherbot/enhanced_cone_analyzer.py`.

Shallow embedding conventions:
* Python floats are modelled as exact rationals (`ℚ`); the machine arithmetic
  here (additions of 0.1-steps, a multiplication by 1.6, one division) never
  depends on rounding for the properties below.
* Python `Optional[T]` fields become `Option T`; Python truthiness of strings
  (`None` or `""` are falsy) is modelled by comparing `Option.getD "" ≠ ""`.
* Shapely geometries are modelled abstractly as a record carrying exactly the
  observations the analyzer makes of them: `area`, `centroid`, and the
  point-containment test `point_in_any([g], (lon, lat))`.
* The trigonometric haversine distance is floating-point real analysis and is
  not computably representable; every definition that needs it takes the
  distance function `hdist` as an explicit parameter, and the theorems are
  proved for every such function (hence in particular for haversine).
* Network fetches are out of scope: the analysis pipeline is embedded from the
  point where the fetched data (cones, alerts) is in hand.
-/

namespace Weatherbot

/-- Python substring test `pat in s` on lists of characters:
true iff `pat` occurs contiguously in `s` (the empty pattern always occurs). -/
def listContains (pat : List Char) : List Char → Bool
  | [] => pat.isEmpty
  | c :: rest => List.isPrefixOf pat (c :: rest) || listContains pat rest

/-- Python substring test `pat in s` for strings. -/
def strContains (s pat : String) : Bool := listContains pat.toList s.toList

/-- Python `str.lower()` for ASCII text, mapped characterwise.  (Defined over
the character list rather than through `String.map`, whose well-founded
recursion would block kernel evaluation of concrete inputs.) -/
def pyLower (s : String) : String := String.mk (s.data.map Char.toLower)

/-- Python `any(char.isdigit() for char in s)`. -/
def hasDigit (s : String) : Bool := s.toList.any Char.isDigit

/-- Python regex `\s` over ASCII: space, tab, newline, carriage return,
vertical tab, form feed.  Also Python `str.strip()` whitespace. -/
def pyIsSpace (c : Char) : Bool :=
  c == ' ' || c == '\t' || c == '\n' || c == '\r' || c == '\x0b' || c == '\x0c'

/-- Numeric value of a list of decimal digit characters. -/
def digitsVal (cs : List Char) : Nat :=
  cs.foldl (fun a c => a * 10 + (c.toNat - '0'.toNat)) 0

/-- Python `int(s)` for ASCII decimal strings: strip whitespace, optional
sign, one or more digits; `none` models `ValueError`. -/
def pyInt (s : String) : Option Int :=
  let cs := ((s.toList.dropWhile pyIsSpace).reverse.dropWhile pyIsSpace).reverse
  let signAndDigits : Int × List Char :=
    match cs with
    | '+' :: rest => (1, rest)
    | '-' :: rest => (-1, rest)
    | rest => (1, rest)
  if signAndDigits.2 ≠ [] ∧ signAndDigits.2.all Char.isDigit then
    some (signAndDigits.1 * (digitsVal signAndDigits.2 : Int))
  else none

/-- Modelled from the spec: the alert-level enumeration lives in
`weatherbot/alert_levels.py`, which is not part of the analyzed source.
Spec §3: "ordered enumeration with higher values meaning greater severity
(must support numeric comparison: all-clear < tropical-storm-threat <
tropical-storm-watch/hurricane-threat <
tropical-storm-warning/hurricane-watch/evacuation < hurricane-warning)".
The concrete integers 1..5 follow the "Level n" comments in the analyzer
source (lines 504-515). -/
inductive AlertLevel where
  | ALL_CLEAR
  | TROPICAL_STORM_THREAT
  | TROPICAL_STORM_WATCH_HURRICANE_THREAT
  | TROPICAL_STORM_WARNING_HURRICANE_WATCH_EVACUATION
  | HURRICANE_WARNING
deriving DecidableEq

/-- Numeric encoding of `AlertLevel` (spec §3 ordering; the code compares
levels only through `.value`). -/
def AlertLevel.value : AlertLevel → Nat
  | .ALL_CLEAR => 1
  | .TROPICAL_STORM_THREAT => 2
  | .TROPICAL_STORM_WATCH_HURRICANE_THREAT => 3
  | .TROPICAL_STORM_WARNING_HURRICANE_WATCH_EVACUATION => 4
  | .HURRICANE_WARNING => 5

/-- `StormCategory` enum (source lines 23-32). -/
inductive StormCategory where
  | HURRICANE_MAJOR
  | HURRICANE_MINOR
  | TROPICAL_STORM
  | TROPICAL_DEPRESSION
  | INVEST_DISTURBANCE
  | DEVELOPMENT_AREA
  | UNKNOWN
deriving DecidableEq

/-- Abstract shapely geometry: exactly the observations the analyzer makes.
`containsPt` models `point_in_any([g], (lon, lat))`; `centroid` is
`(centroid.y, centroid.x)` i.e. (lat, lon). -/
structure Geometry where
  area : ℚ
  centroid : ℚ × ℚ
  containsPt : ℚ × ℚ → Bool

/-- An official alert record; the analyzer reads only the `event` text and the
`description` text (identically for `NWSAlert` objects and dicts). -/
structure Alert where
  event : String
  description : String

/-- The `max_winds` field may be absent, numeric, or a string (source lines
427-434 coerce it). -/
inductive MaxWinds where
  | missing
  | num (n : Int)
  | text (s : String)

/-- `NHCCone` record as consumed by the analyzer. -/
structure NHCCone where
  geometry : Option Geometry := none
  storm_id : Option String := none
  storm_name : Option String := none
  storm_type : Option String := none
  current_position : Option (ℚ × ℚ) := none
  max_winds : MaxWinds := .missing
  advisory_num : Option String := none
  movement : Option String := none

/-- `StormThreat` dataclass (source lines 35-46). -/
structure StormThreat where
  cone : NHCCone
  category : StormCategory
  in_cone : Bool
  distance_km : Option ℚ
  threat_level : AlertLevel
  confidence : ℚ
  official_warnings : List String
  estimated_arrival_hours : Option Int

/-- Result dictionary of `analyze_location_threat` (source lines 113-119). -/
structure AnalysisResult where
  alert_level : AlertLevel
  storm_threats : List StormThreat
  is_in_any_cone : Bool
  nws_alerts : List Alert
  total_storms_analyzed : Nat

/-- `max_winds = cone.max_winds or 0` followed by the string coercion with
fallback 0 (source lines 427-434).  An empty string is falsy in Python, so it
becomes 0 before the `isinstance` check; other strings go through `int()`. -/
def coerce_winds : MaxWinds → Int
  | .missing => 0
  | .num n => n
  | .text s => if s = "" then 0 else (pyInt s).getD 0

/-- `_categorize_storm` (source lines 416-460). -/
def categorize_storm (cone : NHCCone) : StormCategory :=
  let storm_type := pyLower (cone.storm_type.getD "")
  let storm_name := pyLower (cone.storm_name.getD "")
  let max_winds := coerce_winds cone.max_winds
  if strContains storm_type "hurricane" = true ∨ max_winds ≥ 74 then
    if max_winds ≥ 111 then .HURRICANE_MAJOR else .HURRICANE_MINOR
  else if strContains storm_type "tropical storm" = true ∨ strContains storm_type "storm" = true
      ∨ (39 ≤ max_winds ∧ max_winds < 74) then
    .TROPICAL_STORM
  else if strContains storm_type "depression" = true ∨ (0 < max_winds ∧ max_winds < 39) then
    .TROPICAL_DEPRESSION
  else if strContains storm_name "invest" = true ∨ strContains storm_type "disturbance" = true
      ∨ strContains storm_type "development" = true
      ∨ strContains (cone.storm_id.getD "") "9" = true then
    .INVEST_DISTURBANCE
  else if strContains storm_name "development" = true ∨ strContains storm_name "area" = true then
    .DEVELOPMENT_AREA
  else
    .UNKNOWN

/-- The `is_named_storm` predicate inside `_check_precise_intersection`
(source lines 312-328); `none` corresponds to the `cone=None` default, under
which `is_named_storm` stays `False`. -/
def isNamedStorm : Option NHCCone → Bool
  | none => false
  | some c =>
    let storm_name := pyLower (c.storm_name.getD "")
    let storm_type := pyLower (c.storm_type.getD "")
    let storm_id := pyLower (c.storm_id.getD "")
    strContains storm_type "named storm" || strContains storm_type "hurricane" ||
    strContains storm_type "tropical storm" ||
    strContains storm_type "potential tropical cyclone" ||
    strContains storm_name "cyclone" ||
    (decide (storm_name ≠ "") && decide (storm_name ≠ "unknown")
      && decide (storm_name ≠ "invest")) ||
    (decide (storm_id ≠ "") && hasDigit storm_id && strContains storm_id "al")

/-- `_check_precise_intersection` (source lines 286-350), point mode
(`use_county_intersect=False`, as in every call made by
`analyze_location_threat` modelled here).  The `try`-block cannot fail in the
model (the `except` fallback performs the same point test). -/
def check_precise_intersection (geometry : Geometry) (lat lon : ℚ)
    (cone : Option NHCCone) : Bool :=
  if geometry.area > 50 then
    if isNamedStorm cone then geometry.containsPt (lon, lat) else false
  else
    geometry.containsPt (lon, lat)

/-- `_filter_storms_by_distance` (source lines 352-414).  The loop is a
filter: keep when the current position is within `maxd` of the target by
`hdist`; else, with a geometry, when its centroid is within `maxd`; else keep
unconditionally.  The `try` around the centroid computation cannot fail in
the model (its `except` also keeps the cone). -/
def filter_storms_by_distance (hdist : ℚ × ℚ → ℚ × ℚ → ℚ) (cones : List NHCCone)
    (location : ℚ × ℚ) (maxd : ℚ) : List NHCCone :=
  cones.filter fun cone =>
    match cone.current_position with
    | some pos => decide (hdist location pos ≤ maxd)
    | none =>
      match cone.geometry with
      | some g => decide (hdist location g.centroid ≤ maxd)
      | none => true

/-- The event-text to alert-level mapping shared verbatim by
`_determine_threat_level` (lines 493-500) and `_apply_nws_overrides`
(lines 983-992); takes the already-lowercased event text. -/
def eventOverrideLevel (event : String) : Option AlertLevel :=
  if strContains event "hurricane warning" then some .HURRICANE_WARNING
  else if strContains event "hurricane watch" then
    some .TROPICAL_STORM_WARNING_HURRICANE_WATCH_EVACUATION
  else if strContains event "tropical storm warning" then
    some .TROPICAL_STORM_WARNING_HURRICANE_WATCH_EVACUATION
  else if strContains event "tropical storm watch" then
    some .TROPICAL_STORM_WATCH_HURRICANE_THREAT
  else none

/-- The alert scan of `_determine_threat_level` (lines 484-500): return on the
first alert whose event matches one of the four phrases. -/
def scanAlertsLevel : List Alert → Option AlertLevel
  | [] => none
  | a :: rest =>
    match eventOverrideLevel (pyLower a.event) with
    | some l => some l
    | none => scanAlertsLevel rest

/-- `_determine_threat_level` (source lines 462-515). -/
def determine_threat_level (_cone : NHCCone) (category : StormCategory)
    (in_cone : Bool) (nws_alerts : List Alert) : AlertLevel :=
  if in_cone = false then .ALL_CLEAR
  else
    match scanAlertsLevel nws_alerts with
    | some l => l
    | none =>
      match category with
      | .HURRICANE_MAJOR => .TROPICAL_STORM_WARNING_HURRICANE_WATCH_EVACUATION
      | .HURRICANE_MINOR => .TROPICAL_STORM_WATCH_HURRICANE_THREAT
      | .TROPICAL_STORM => .TROPICAL_STORM_THREAT
      | .TROPICAL_DEPRESSION => .TROPICAL_STORM_THREAT
      | .INVEST_DISTURBANCE => .TROPICAL_STORM_THREAT
      | _ => .ALL_CLEAR

/-- `_calculate_distance` (source lines 517-554): `None` without a current
position, else the haversine distance, supplied as `hdist`. -/
def calculate_distance (hdist : ℚ × ℚ → ℚ × ℚ → ℚ) (cone : NHCCone)
    (lat lon : ℚ) : Option ℚ :=
  match cone.current_position with
  | none => none
  | some pos => some (hdist (lat, lon) pos)

/-- `_calculate_confidence` (source lines 556-591). -/
def calculate_confidence (cone : NHCCone) (category : StormCategory)
    (_in_cone : Bool) : ℚ :=
  let confidence : ℚ := 0.5
  let confidence :=
    if (cone.storm_name.getD "") ≠ "" ∧
        strContains (pyLower (cone.storm_name.getD "")) "unknown" = false then
      confidence + 0.2
    else confidence
  let confidence :=
    if (cone.advisory_num.getD "") ≠ "" ∧ (cone.advisory_num.getD "") ≠ "Unknown" then
      confidence + 0.1
    else confidence
  let confidence :=
    if cone.current_position.isSome = true then confidence + 0.1 else confidence
  let confidence :=
    if category ∈ [StormCategory.HURRICANE_MAJOR, StormCategory.HURRICANE_MINOR,
        StormCategory.TROPICAL_STORM] then
      confidence + 0.1
    else confidence
  min 1 confidence

/-- `_get_relevant_warnings` (source lines 593-624). -/
def get_relevant_warnings (cone : NHCCone) (nws_alerts : List Alert) : List String :=
  let storm_name := pyLower (cone.storm_name.getD "")
  (nws_alerts.filter fun a =>
    decide (storm_name ≠ "") && strContains (pyLower a.description) storm_name).map
    fun a => a.event

/-- True iff the character list starts with one of the speed units of the
regex `(\d+)\s*(?:mph|kph|km/h|knots)` (source line 655). -/
def unitAt (cs : List Char) : Bool :=
  List.isPrefixOf "mph".toList cs || List.isPrefixOf "kph".toList cs ||
  List.isPrefixOf "km/h".toList cs || List.isPrefixOf "knots".toList cs

/-- `re.search(r'(\d+)\s*(?:mph|kph|km/h|knots)', movement)` group 1.
Leftmost-match semantics: scan left to right; at the start of each maximal
digit run, skip the run's whitespace and test for a unit.  Starting inside a
run, or backtracking `\d+` to a shorter prefix, can never succeed when the
full run fails (the remainder would have to begin with a digit, which no unit
does), so runs are skipped whole; `prevDigit` marks being inside a run. -/
def findSpeedAux : Bool → List Char → Option Nat
  | _, [] => none
  | prevDigit, c :: rest =>
    if c.isDigit then
      if prevDigit then findSpeedAux true rest
      else
        let run := List.takeWhile Char.isDigit (c :: rest)
        let after := List.dropWhile Char.isDigit (c :: rest)
        if unitAt (after.dropWhile pyIsSpace) then some (digitsVal run)
        else findSpeedAux true rest
    else findSpeedAux false rest

/-- Speed-pattern search over a whole (already lowercased) movement string. -/
def findSpeed (movement : String) : Option Nat := findSpeedAux false movement.toList

/-- Speed in km/h derived from the lowercased movement text (source lines
650-661): default 15; a parsed number is multiplied by 1.6 when the movement
text contains "mph" or "knots" anywhere (the code tests the whole string, not
the matched unit). -/
def speedKph (movement : String) : ℚ :=
  match findSpeed movement with
  | some n =>
    if strContains movement "mph" || strContains movement "knots" then (n : ℚ) * 1.6
    else (n : ℚ)
  | none => 15

/-- Python `int()` truncation of a rational toward zero. -/
def ratTrunc (q : ℚ) : Int := if 0 ≤ q then ⌊q⌋ else ⌈q⌉

/-- `_estimate_arrival_time` (source lines 626-666).  Note the guard
`if not distance_km: return None` fires on a distance of exactly 0 (falsy
float), not only on `None`. -/
def estimate_arrival_time (hdist : ℚ × ℚ → ℚ × ℚ → ℚ) (cone : NHCCone)
    (lat lon : ℚ) : Option Int :=
  match cone.current_position, cone.movement with
  | some _, some mv =>
    if mv = "" then none
    else
      match calculate_distance hdist cone lat lon with
      | none => none
      | some d =>
        if d = 0 then none
        else
          let movement := pyLower mv
          let speed_kph := speedKph movement
          if speed_kph > 0 then some (ratTrunc (d / speed_kph)) else none
  | _, _ => none

/-- One iteration of the `for alert in nws_alerts` loop of
`_apply_nws_overrides` (source lines 974-995). -/
def nwsStep (h : AlertLevel) (a : Alert) : AlertLevel :=
  match eventOverrideLevel (pyLower a.event) with
  | some l => if l.value > h.value then l else h
  | none => h

/-- `_apply_nws_overrides` (source lines 958-999). -/
def apply_nws_overrides (current_level : AlertLevel) (nws_alerts : List Alert) :
    AlertLevel :=
  let highest_nws_level := nws_alerts.foldl nwsStep .ALL_CLEAR
  if highest_nws_level.value > current_level.value then highest_nws_level
  else current_level

/-- `_analyze_storm_threat` (source lines 228-284), point-intersection mode. -/
def analyze_storm_threat (hdist : ℚ × ℚ → ℚ × ℚ → ℚ) (cone : NHCCone)
    (geometry : Geometry) (lat lon : ℚ) (nws_alerts : List Alert) : StormThreat :=
  let in_cone := check_precise_intersection geometry lat lon (some cone)
  let category := categorize_storm cone
  let distance_km := calculate_distance hdist cone lat lon
  let threat_level := determine_threat_level cone category in_cone nws_alerts
  let confidence := calculate_confidence cone category in_cone
  let warnings := get_relevant_warnings cone nws_alerts
  let arrival_hours := estimate_arrival_time hdist cone lat lon
  { cone := cone, category := category, in_cone := in_cone,
    distance_km := distance_km, threat_level := threat_level,
    confidence := confidence, official_warnings := warnings,
    estimated_arrival_hours := arrival_hours }

/-- Mutable state of the `for cone, geometry in zip(cones, geometries)` loop
in `analyze_location_threat` (source lines 88-104). -/
structure LoopState where
  storm_threats : List StormThreat
  highest : AlertLevel
  any_cone : Bool

/-- One iteration of the loop (source lines 92-104): only in-cone threats are
recorded, and `highest` is raised on a strictly greater threat level. -/
def threatStep (hdist : ℚ × ℚ → ℚ × ℚ → ℚ) (lat lon : ℚ) (nws_alerts : List Alert)
    (s : LoopState) (p : NHCCone × Geometry) : LoopState :=
  let threat := analyze_storm_threat hdist p.1 p.2 lat lon nws_alerts
  if threat.in_cone then
    { storm_threats := s.storm_threats ++ [threat],
      highest :=
        if threat.threat_level.value > s.highest.value then threat.threat_level
        else s.highest,
      any_cone := true }
  else s

/-- The cone/geometry pairing of `analyze_location_threat` (source lines
82-92): the geometry list is rebuilt as the geometries of the filtered cones
that have one, and then paired with the cones positionally by `zip`. -/
def conePairs (cones : List NHCCone) : List (NHCCone × Geometry) :=
  cones.zip (cones.filterMap fun c => c.geometry)

/-- `analyze_location_threat` (source lines 56-119) from the point where the
fetched storm data (`cones0`, as produced by `_get_enhanced_storm_data`) and
the official alerts (`nws_alerts`) are in hand; `use_county_intersect=False`.
The `if cones:` guard around the filtering (line 80) is omitted: on an empty
input both branches yield an empty pair list, so it is observationally the
identity. -/
def analyze_location_threat (hdist : ℚ × ℚ → ℚ × ℚ → ℚ) (lat lon : ℚ)
    (cones0 : List NHCCone) (nws_alerts : List Alert) : AnalysisResult :=
  let cones := filter_storms_by_distance hdist cones0 (lat, lon) 2000
  let final := (conePairs cones).foldl (threatStep hdist lat lon nws_alerts)
    { storm_threats := [], highest := .ALL_CLEAR, any_cone := false }
  let highest_threat :=
    if nws_alerts.isEmpty then final.highest
    else apply_nws_overrides final.highest nws_alerts
  { alert_level := highest_threat,
    storm_threats := final.storm_threats,
    is_in_any_cone := final.any_cone,
    nws_alerts := nws_alerts,
    total_storms_analyzed := cones.length }

/-- `_get_nhc_alerts_for_location` (source lines 693-956).  The region gate at
lines 708-710 is embedded exactly; the document-scanning body (lines 712-952)
performs network fetches and is out of scope for the shallow embedding, so it
is abstracted as the `scanDocuments` argument, which returns the synthesized
alerts together with the number of documents fetched.  Outside the gate the
function returns the empty alert list having fetched nothing. -/
def get_nhc_alerts_for_location (scanDocuments : ℚ → ℚ → List Alert × Nat)
    (latitude longitude : ℚ) : List Alert × Nat :=
  if 23 ≤ latitude ∧ latitude ≤ 27 ∧ -80 ≤ longitude ∧ longitude ≤ -72 then
    scanDocuments latitude longitude
  else
    ([], 0)

/-- Declarative (spec-side) value of the strongest override any alert in the
list can force: the maximum, over alerts whose event text matches one of the
four override phrases, of the mapped level's value; `ALL_CLEAR`'s value when
none matches. -/
def nwsMaxVal : List Alert → Nat
  | [] => AlertLevel.ALL_CLEAR.value
  | a :: rest =>
    match eventOverrideLevel (pyLower a.event) with
    | some l => max l.value (nwsMaxVal rest)
    | none => nwsMaxVal rest

/-- Declarative (spec-side) maximum threat-level value over the in-cone
assessments of a list, `ALL_CLEAR`'s value when none is in cone. -/
def inConeMaxVal : List StormThreat → Nat
  | [] => AlertLevel.ALL_CLEAR.value
  | t :: rest =>
    if t.in_cone then max t.threat_level.value (inConeMaxVal rest)
    else inConeMaxVal rest

/-- Declarative (spec-side) relevance criterion of claim C5: position present
and within range; else geometry present and centroid within range; else
included unconditionally. -/
def relevantClaim (hdist : ℚ × ℚ → ℚ × ℚ → ℚ) (location : ℚ × ℚ) (maxd : ℚ)
    (c : NHCCone) : Prop :=
  match c.current_position, c.geometry with
  | some pos, _ => hdist location pos ≤ maxd
  | none, some g => hdist location g.centroid ≤ maxd
  | none, none => True

/-- Declarative (spec-side) "recognizable as a named system" predicate of
claim C6: a named-system phrase in the type field, a non-empty lowercased
name outside {"unknown", "invest"}, or an identifier containing both a digit
and "al". -/
def namedSystemClaim (c : NHCCone) : Bool :=
  let storm_name := pyLower (c.storm_name.getD "")
  let storm_type := pyLower (c.storm_type.getD "")
  let storm_id := pyLower (c.storm_id.getD "")
  strContains storm_type "named storm" || strContains storm_type "hurricane" ||
  strContains storm_type "tropical storm" ||
  strContains storm_type "potential tropical cyclone" ||
  (decide (storm_name ≠ "") && decide (storm_name ≠ "unknown")
    && decide (storm_name ≠ "invest")) ||
  (hasDigit storm_id && strContains storm_id "al")

lemma AlertLevel.one_le_value (l : AlertLevel) : 1 ≤ l.value := by
  cases l <;> simp [AlertLevel.value]

lemma ite_level_value (a b : AlertLevel) :
    (if a.value > b.value then a else b).value = max a.value b.value := by
  by_cases h : a.value > b.value
  · rw [if_pos h]; omega
  · rw [if_neg h]; omega

lemma one_le_nwsMaxVal (alerts : List Alert) : 1 ≤ nwsMaxVal alerts := by
  induction alerts with
  | nil => simp [nwsMaxVal, AlertLevel.value]
  | cons a rest ih =>
    simp only [nwsMaxVal]
    cases eventOverrideLevel (pyLower a.event) with
    | none => exact ih
    | some l => simp only []; omega

lemma one_le_inConeMaxVal (ts : List StormThreat) : 1 ≤ inConeMaxVal ts := by
  induction ts with
  | nil => simp [inConeMaxVal, AlertLevel.value]
  | cons t rest ih =>
    simp only [inConeMaxVal]
    by_cases h : t.in_cone = true
    · rw [if_pos h]; omega
    · rw [if_neg h]; exact ih

lemma nws_foldl_value (alerts : List Alert) :
    ∀ h0 : AlertLevel, (alerts.foldl nwsStep h0).value = max h0.value (nwsMaxVal alerts) := by
  induction alerts with
  | nil =>
    intro h0
    have h := AlertLevel.one_le_value h0
    have h1 : nwsMaxVal [] = 1 := rfl
    rw [List.foldl_nil, h1]
    omega
  | cons a rest ih =>
    intro h0
    rw [List.foldl_cons, ih]
    simp only [nwsMaxVal, nwsStep]
    cases eventOverrideLevel (pyLower a.event) with
    | none => rfl
    | some l =>
      simp only []
      rw [ite_level_value]
      omega

lemma apply_nws_overrides_value (cur : AlertLevel) (alerts : List Alert) :
    (apply_nws_overrides cur alerts).value = max cur.value (nwsMaxVal alerts) := by
  simp only [apply_nws_overrides]
  rw [ite_level_value, nws_foldl_value]
  have h1 : AlertLevel.ALL_CLEAR.value = 1 := rfl
  have := one_le_nwsMaxVal alerts
  omega

lemma threat_foldl_spec (hdist : ℚ × ℚ → ℚ × ℚ → ℚ) (lat lon : ℚ)
    (alerts : List Alert) (pairs : List (NHCCone × Geometry)) :
    ∀ s : LoopState,
      (pairs.foldl (threatStep hdist lat lon alerts) s).storm_threats
        = s.storm_threats
          ++ (pairs.map fun p => analyze_storm_threat hdist p.1 p.2 lat lon alerts).filter
              (fun t => t.in_cone)
      ∧ (pairs.foldl (threatStep hdist lat lon alerts) s).any_cone
        = (s.any_cone
            || (pairs.map fun p => analyze_storm_threat hdist p.1 p.2 lat lon alerts).any
                fun t => t.in_cone)
      ∧ (pairs.foldl (threatStep hdist lat lon alerts) s).highest.value
        = max s.highest.value
            (inConeMaxVal (pairs.map fun p => analyze_storm_threat hdist p.1 p.2 lat lon alerts)) := by
  induction pairs with
  | nil =>
    intro s
    have h := AlertLevel.one_le_value s.highest
    have h1 : inConeMaxVal [] = 1 := rfl
    refine ⟨by simp, by simp, ?_⟩
    rw [List.foldl_nil, List.map_nil, h1]
    omega
  | cons p rest ih =>
    intro s
    rw [List.foldl_cons, List.map_cons]
    obtain ⟨ih1, ih2, ih3⟩ := ih (threatStep hdist lat lon alerts s p)
    by_cases h : (analyze_storm_threat hdist p.1 p.2 lat lon alerts).in_cone = true
    · have hstep : threatStep hdist lat lon alerts s p =
        { storm_threats := s.storm_threats ++ [analyze_storm_threat hdist p.1 p.2 lat lon alerts],
          highest :=
            if (analyze_storm_threat hdist p.1 p.2 lat lon alerts).threat_level.value
                > s.highest.value then
              (analyze_storm_threat hdist p.1 p.2 lat lon alerts).threat_level
            else s.highest,
          any_cone := true } := by
        simp only [threatStep, h, if_true]
      refine ⟨?_, ?_, ?_⟩
      · rw [ih1, hstep]
        simp [List.filter_cons, h]
      · rw [ih2, hstep]
        simp [List.any_cons, h]
      · rw [ih3, hstep]
        simp only [inConeMaxVal, h, if_true, ite_level_value]
        omega
    · have hstep : threatStep hdist lat lon alerts s p = s := by
        simp only [threatStep, h]
        simp
      have hb : (analyze_storm_threat hdist p.1 p.2 lat lon alerts).in_cone = false := by
        simpa using h
      refine ⟨?_, ?_, ?_⟩
      · rw [ih1, hstep]
        simp [List.filter_cons, hb]
      · rw [ih2, hstep]
        simp [List.any_cons, hb]
      · rw [ih3, hstep]
        simp only [inConeMaxVal, hb]
        simp

/-- The per-storm assessments actually computed by one analysis call: the
post-filter cones are paired with geometries by `conePairs` and each pair is
assessed. -/
def pipelineThreats (hdist : ℚ × ℚ → ℚ × ℚ → ℚ) (lat lon : ℚ)
    (cones0 : List NHCCone) (nws_alerts : List Alert) : List StormThreat :=
  (conePairs (filter_storms_by_distance hdist cones0 (lat, lon) 2000)).map
    fun p => analyze_storm_threat hdist p.1 p.2 lat lon nws_alerts

/-- C1: for every analysis call, the returned `alert_level` is exactly the
maximum of the per-storm threat levels over the assessed storms whose
`in_cone` flag is true (`ALL_CLEAR`'s value when none is in cone), raised —
and never lowered — by the official alert overrides (whose contribution is
`nwsMaxVal`); `is_in_any_cone` is the OR of the in-cone flags;
`storm_threats` contains exactly the in-cone assessments; and
`total_storms_analyzed` is the number of cones remaining after the relevance
filter. -/
theorem C1_result_aggregation (hdist : ℚ × ℚ → ℚ × ℚ → ℚ) (lat lon : ℚ)
    (cones0 : List NHCCone) (nws_alerts : List Alert) :
    (analyze_location_threat hdist lat lon cones0 nws_alerts).alert_level.value
      = max (inConeMaxVal (pipelineThreats hdist lat lon cones0 nws_alerts))
          (nwsMaxVal nws_alerts)
    ∧ inConeMaxVal (pipelineThreats hdist lat lon cones0 nws_alerts)
        ≤ (analyze_location_threat hdist lat lon cones0 nws_alerts).alert_level.value
    ∧ (analyze_location_threat hdist lat lon cones0 nws_alerts).storm_threats
        = (pipelineThreats hdist lat lon cones0 nws_alerts).filter (fun t => t.in_cone)
    ∧ (analyze_location_threat hdist lat lon cones0 nws_alerts).is_in_any_cone
        = (pipelineThreats hdist lat lon cones0 nws_alerts).any (fun t => t.in_cone)
    ∧ (analyze_location_threat hdist lat lon cones0 nws_alerts).total_storms_analyzed
        = (filter_storms_by_distance hdist cones0 (lat, lon) 2000).length := by
  obtain ⟨h1, h2, h3⟩ := threat_foldl_spec hdist lat lon nws_alerts
    (conePairs (filter_storms_by_distance hdist cones0 (lat, lon) 2000))
    { storm_threats := [], highest := .ALL_CLEAR, any_cone := false }
  have hicm := one_le_inConeMaxVal (pipelineThreats hdist lat lon cones0 nws_alerts)
  have hnws := one_le_nwsMaxVal nws_alerts
  have hvalue :
      (analyze_location_threat hdist lat lon cones0 nws_alerts).alert_level.value
        = max (inConeMaxVal (pipelineThreats hdist lat lon cones0 nws_alerts))
            (nwsMaxVal nws_alerts) := by
    simp only [analyze_location_threat]
    cases nws_alerts with
    | nil =>
      simp only [List.isEmpty_nil, if_true]
      rw [h3]
      have hn : nwsMaxVal ([] : List Alert) = 1 := rfl
      have hv : AlertLevel.ALL_CLEAR.value = 1 := rfl
      simp only [pipelineThreats] at hicm ⊢
      rw [hn, hv]
      omega
    | cons a rest =>
      simp only [List.isEmpty_cons, if_false, Bool.false_eq_true]
      rw [apply_nws_overrides_value, h3]
      have hv : AlertLevel.ALL_CLEAR.value = 1 := rfl
      simp only [pipelineThreats] at hicm ⊢
      rw [hv]
      omega
  refine ⟨hvalue, ?_, ?_, ?_, ?_⟩
  · rw [hvalue]; omega
  · simp only [analyze_location_threat, pipelineThreats]
    rw [h1]
    simp
  · simp only [analyze_location_threat, pipelineThreats]
    rw [h2]
    simp
  · simp only [analyze_location_threat]

/-- C2: applying the official-alert overrides to a current level yields
exactly the maximum of the current level's value and the strongest matched
alert level's value; in particular the override never lowers the level. -/
theorem C2_override_is_max (L1 : AlertLevel) (nws_alerts : List Alert) :
    (apply_nws_overrides L1 nws_alerts).value = max L1.value (nwsMaxVal nws_alerts)
    ∧ L1.value ≤ (apply_nws_overrides L1 nws_alerts).value := by
  have h := apply_nws_overrides_value L1 nws_alerts
  exact ⟨h, by omega⟩

/-- C3: whenever the in-cone flag is false, the per-storm threat level is
`ALL_CLEAR`, regardless of the storm's cone record, category, or any alerts
present. -/
theorem C3_not_in_cone_all_clear (cone : NHCCone) (category : StormCategory)
    (nws_alerts : List Alert) :
    determine_threat_level cone category false nws_alerts = .ALL_CLEAR := by
  simp [determine_threat_level]

lemma keep_iff (hdist : ℚ × ℚ → ℚ × ℚ → ℚ) (location : ℚ × ℚ) (maxd : ℚ)
    (c : NHCCone) :
    ((match c.current_position with
      | some pos => decide (hdist location pos ≤ maxd)
      | none =>
        match c.geometry with
        | some g => decide (hdist location g.centroid ≤ maxd)
        | none => true) = true)
      ↔ relevantClaim hdist location maxd c := by
  cases hp : c.current_position <;> cases hg : c.geometry <;>
    simp [relevantClaim, hp, hg]

/-- C5: the relevance filter keeps a cone exactly when: its current position
is present and within `maxd` of the target by the distance function; else,
with a geometry present, its centroid is within `maxd`; else unconditionally.
In particular a cone lacking both position and geometry is always kept.  The
theorem holds for every distance function `hdist`, hence for the analyzer's
haversine. -/
theorem C5_relevance_filter (hdist : ℚ × ℚ → ℚ × ℚ → ℚ) (cones : List NHCCone)
    (location : ℚ × ℚ) (maxd : ℚ) :
    (∀ c ∈ cones,
      (c ∈ filter_storms_by_distance hdist cones location maxd
        ↔ relevantClaim hdist location maxd c))
    ∧ (∀ c ∈ cones, c.current_position = none → c.geometry = none →
        c ∈ filter_storms_by_distance hdist cones location maxd) := by
  have hmem : ∀ c : NHCCone,
      c ∈ filter_storms_by_distance hdist cones location maxd
        ↔ c ∈ cones ∧ relevantClaim hdist location maxd c := by
    intro c
    rw [filter_storms_by_distance, List.mem_filter]
    exact and_congr_right fun _ => keep_iff hdist location maxd c
  constructor
  · intro c hc
    rw [hmem c]
    exact ⟨fun h => h.2, fun h => ⟨hc, h⟩⟩
  · intro c hc hp hg
    rw [hmem c]
    refine ⟨hc, ?_⟩
    simp [relevantClaim, hp, hg]

lemma cyclone_name_sub (s : String) (h : strContains s "cyclone" = true) :
    (decide (s ≠ "") && decide (s ≠ "unknown") && decide (s ≠ "invest")) = true := by
  by_cases h1 : s = ""
  · subst h1; exact absurd h (by decide)
  by_cases h2 : s = "unknown"
  · subst h2; exact absurd h (by decide)
  by_cases h3 : s = "invest"
  · subst h3; exact absurd h (by decide)
  simp [h1, h2, h3]

lemma hasDigit_ne_empty (s : String) (h : hasDigit s = true) :
    decide (s ≠ "") = true := by
  by_cases h1 : s = ""
  · subst h1; exact absurd h (by decide)
  · simp [h1]

/-- The code's `is_named_storm` coincides with the claim's phrasing: the extra
`"cyclone" in storm_name` clause is subsumed by the name clause (any name
containing "cyclone" is non-empty and differs from "unknown" and "invest"),
and the identifier clause's non-emptiness test is subsumed by the digit
test. -/
lemma isNamedStorm_eq_claim (c : NHCCone) :
    isNamedStorm (some c) = namedSystemClaim c := by
  simp only [isNamedStorm, namedSystemClaim]
  cases hcyc : strContains (pyLower (c.storm_name.getD "")) "cyclone" with
  | true =>
    have hname := cyclone_name_sub _ hcyc
    rw [hname]
    simp
  | false =>
    simp only [hcyc, Bool.or_false, Bool.false_or]
    cases hdg : hasDigit (pyLower (c.storm_id.getD "")) with
    | false => simp [hdg]
    | true =>
      have hne := hasDigit_ne_empty _ hdg
      simp [hdg, hne]

/-- C6: a geometry with area above 50 square degrees is excluded from the
intersection test (result `false`) unless the cone is recognizable as a named
system per `namedSystemClaim`; when it is recognizable the area filter does
not exclude it and the result is the plain point-containment test. -/
theorem C6_large_area_filter (g : Geometry) (lat lon : ℚ) (c : NHCCone)
    (h : g.area > 50) :
    (namedSystemClaim c = false →
      check_precise_intersection g lat lon (some c) = false)
    ∧ (namedSystemClaim c = true →
      check_precise_intersection g lat lon (some c) = g.containsPt (lon, lat)) := by
  rw [check_precise_intersection, if_pos h, isNamedStorm_eq_claim]
  constructor <;> intro hn <;> simp [hn]

/-- Large development-area geometry used to exercise the area filter. -/
def gLarge : Geometry := { area := 51, centroid := (0, 0), containsPt := fun _ => true }

/-- A large-area cone whose type marks it as a tropical storm. -/
def coneTS : NHCCone := { storm_type := some "Tropical Storm" }

/-- A large-area unnamed disturbance: type "disturbance", name "Invest",
identifier without a digit. -/
def coneInvest : NHCCone :=
  { storm_type := some "disturbance", storm_name := some "Invest",
    storm_id := some "XYZ" }

theorem C6_witness :
    check_precise_intersection gLarge 25 (-77) (some coneTS)
      = gLarge.containsPt (-77, 25)
    ∧ check_precise_intersection gLarge 25 (-77) (some coneInvest) = false :=
  ⟨(C6_large_area_filter gLarge 25 (-77) coneTS (by decide)).2 (by decide),
   (C6_large_area_filter gLarge 25 (-77) coneInvest (by decide)).1 (by decide)⟩

/-- C7: whenever the storm type contains "hurricane" or the coerced wind is
at least 74, categorization takes the hurricane branch first (priority
order), returning `HURRICANE_MAJOR` exactly when the wind is at least 111 and
`HURRICANE_MINOR` otherwise. -/
theorem C7_hurricane_categorization (cone : NHCCone)
    (h : strContains (pyLower (cone.storm_type.getD "")) "hurricane" = true
      ∨ coerce_winds cone.max_winds ≥ 74) :
    categorize_storm cone
      = (if coerce_winds cone.max_winds ≥ 111 then StormCategory.HURRICANE_MAJOR
         else StormCategory.HURRICANE_MINOR) := by
  simp only [categorize_storm]
  rw [if_pos h]

/-- Hurricane-typed cone with 111-knot winds. -/
def coneH111 : NHCCone := { storm_type := some "hurricane", max_winds := .num 111 }

/-- Hurricane-typed cone with 110-knot winds. -/
def coneH110 : NHCCone := { storm_type := some "hurricane", max_winds := .num 110 }

theorem C7_witness :
    categorize_storm coneH111 = StormCategory.HURRICANE_MAJOR
    ∧ categorize_storm coneH110 = StormCategory.HURRICANE_MINOR :=
  ⟨(C7_hurricane_categorization coneH111 (Or.inl (by decide))).trans (by decide),
   (C7_hurricane_categorization coneH110 (Or.inl (by decide))).trans (by decide)⟩

/-- Cone whose name is present and is not the string "unknown", yet whose
lowercased name contains "unknown" as a substring: the two readings of the
name-bonus condition disagree on it. -/
def coneUnknownName : NHCCone := { storm_name := some "Unknown Storm" }

/-- C8 counterexample to the claim as stated: under the claim's condition
"name present and not 'unknown'" (an equality test, as in the parallel
advisory clause), `coneUnknownName` earns the 0.2 name bonus and — with every
other bonus condition false — a confidence of min 1 (0.5 + 0.2) = 7/10; the
code instead performs `not "unknown" in storm_name.lower()`, grants no bonus,
and returns 1/2. -/
theorem C8_counterexample :
    calculate_confidence coneUnknownName .UNKNOWN false = 1 / 2
    ∧ (coneUnknownName.storm_name.getD "") ≠ ""
    ∧ (coneUnknownName.storm_name.getD "") ≠ "unknown"
    ∧ (coneUnknownName.advisory_num.getD "") = ""
    ∧ coneUnknownName.current_position.isSome = false
    ∧ min 1 ((0.5 : ℚ) + 0.2 + 0 + 0 + 0) = 7 / 10
    ∧ (1 : ℚ) / 2 ≠ 7 / 10 := by
  have hc : strContains (pyLower "Unknown Storm") "unknown" = true := rfl
  refine ⟨?_, by decide, by decide, rfl, rfl, ?_, by norm_num⟩
  · simp [calculate_confidence, coneUnknownName, hc]
    rw [inf_eq_right.mpr (by norm_num : (0.5 : ℚ) ≤ 1)]
    norm_num
  · rw [min_eq_right (by norm_num : (0.5 : ℚ) + 0.2 + 0 + 0 + 0 ≤ 1)]
    norm_num

/-- C8 (amended): the confidence score is 0.5 plus 0.2 for a present name
whose lowercased form does not contain "unknown" as a substring (the code's
test; the claim's "present and not 'unknown'" equality reading fails, see the
counterexample), plus 0.1 for a present advisory identifier other than
"Unknown", plus 0.1 for a present position, plus 0.1 for a major-hurricane,
minor-hurricane or tropical-storm category, capped at 1.0; and it always lies
in [0, 1]. -/
theorem C8_confidence_formula (cone : NHCCone) (category : StormCategory)
    (in_cone : Bool) :
    calculate_confidence cone category in_cone
      = min 1 (0.5
          + (if (cone.storm_name.getD "") ≠ ""
                ∧ strContains (pyLower (cone.storm_name.getD "")) "unknown" = false
             then (0.2 : ℚ) else 0)
          + (if (cone.advisory_num.getD "") ≠ ""
                ∧ (cone.advisory_num.getD "") ≠ "Unknown"
             then (0.1 : ℚ) else 0)
          + (if cone.current_position.isSome = true then (0.1 : ℚ) else 0)
          + (if category ∈ [StormCategory.HURRICANE_MAJOR,
                StormCategory.HURRICANE_MINOR, StormCategory.TROPICAL_STORM]
             then (0.1 : ℚ) else 0))
    ∧ 0 ≤ calculate_confidence cone category in_cone
    ∧ calculate_confidence cone category in_cone ≤ 1 := by
  refine ⟨?_, ?_, ?_⟩
  · simp only [calculate_confidence]
    split_ifs <;> norm_num
  · simp only [calculate_confidence]
    refine le_min (by norm_num) ?_
    split_ifs <;> norm_num
  · simp only [calculate_confidence]
    exact min_le_left _ _

/-- C10: a target outside the latitude band [23, 27] or the longitude band
[-80, -72] makes the secondary NHC alert fetch return the empty alert list
having fetched no document at all, for every possible document-scanning
behavior; inside the box the document scan is invoked. -/
theorem C10_region_gate (scanDocuments : ℚ → ℚ → List Alert × Nat)
    (lat lon : ℚ) :
    ((lat < 23 ∨ 27 < lat ∨ lon < -80 ∨ -72 < lon) →
      get_nhc_alerts_for_location scanDocuments lat lon = ([], 0))
    ∧ ((23 ≤ lat ∧ lat ≤ 27 ∧ -80 ≤ lon ∧ lon ≤ -72) →
      get_nhc_alerts_for_location scanDocuments lat lon = scanDocuments lat lon) := by
  constructor
  · intro h
    rw [get_nhc_alerts_for_location, if_neg]
    rintro ⟨h1, h2, h3, h4⟩
    rcases h with h | h | h | h <;> linarith
  · intro h
    rw [get_nhc_alerts_for_location, if_pos h]

theorem C10_witness :
    get_nhc_alerts_for_location (fun _ _ => ([⟨"Hurricane Warning", "x"⟩], 6)) 30 (-80)
      = ([], 0) :=
  (C10_region_gate (fun _ _ => ([⟨"Hurricane Warning", "x"⟩], 6)) 30 (-80)).1
    (Or.inr (Or.inl (by norm_num)))

lemma filterMap_all_some_get? {α β : Type} (f : α → Option β) :
    ∀ l : List α, (∀ a ∈ l, (f a).isSome = true) →
      (l.filterMap f).length = l.length ∧
      ∀ (k : Nat) (a : α), l.get? k = some a → (l.filterMap f).get? k = f a := by
  intro l
  induction l with
  | nil =>
    intro _
    refine ⟨rfl, ?_⟩
    intro k a h
    simp at h
  | cons a t ih =>
    intro hall
    have ha : (f a).isSome = true := hall a (List.mem_cons_self a t)
    obtain ⟨b, hb⟩ := Option.isSome_iff_exists.mp ha
    obtain ⟨ih1, ih2⟩ := ih fun x hx => hall x (List.mem_cons_of_mem a hx)
    rw [List.filterMap_cons_some hb]
    refine ⟨by simp [ih1], ?_⟩
    intro k c hk
    cases k with
    | zero =>
      simp only [List.get?_cons_zero, Option.some.injEq] at hk
      subst hk
      simp [hb]
    | succ j =>
      simp only [List.get?_cons_succ] at hk ⊢
      exact ih2 j c hk

lemma filterMap_length_lt_of_none {α β : Type} (f : α → Option β) :
    ∀ (l : List α) (i : Nat) (a : α), l.get? i = some a → f a = none →
      (l.filterMap f).length < l.length := by
  intro l
  induction l with
  | nil => intro i a h; simp at h
  | cons c t ih =>
    intro i a hget hnone
    cases i with
    | zero =>
      simp only [List.get?_cons_zero, Option.some.injEq] at hget
      subst hget
      rw [List.filterMap_cons_none hnone]
      have := List.length_filterMap_le f t
      simp only [List.length_cons]
      omega
    | succ j =>
      simp only [List.get?_cons_succ] at hget
      have h2 := ih j a hget hnone
      cases hfc : f c with
      | none =>
        rw [List.filterMap_cons_none hfc]
        simp only [List.length_cons]
        omega
      | some b =>
        rw [List.filterMap_cons_some hfc]
        simp only [List.length_cons]
        omega

lemma filterMap_get?_ge {α β : Type} (f : α → Option β) :
    ∀ (l : List α) (k : Nat) (b : β), (l.filterMap f).get? k = some b →
      ∃ j a, k ≤ j ∧ l.get? j = some a ∧ f a = some b := by
  intro l
  induction l with
  | nil => intro k b h; simp at h
  | cons c t ih =>
    intro k b hget
    cases hfc : f c with
    | none =>
      rw [List.filterMap_cons_none hfc] at hget
      obtain ⟨j, a, hkj, hja, hfa⟩ := ih k b hget
      exact ⟨j + 1, a, by omega, by simpa using hja, hfa⟩
    | some d =>
      rw [List.filterMap_cons_some hfc] at hget
      cases k with
      | zero =>
        simp only [List.get?_cons_zero, Option.some.injEq] at hget
        subst hget
        exact ⟨0, c, Nat.le_refl 0, rfl, hfc⟩
      | succ j =>
        simp only [List.get?_cons_succ] at hget
        obtain ⟨j2, a, hkj, hja, hfa⟩ := ih j b hget
        exact ⟨j2 + 1, a, by omega, by simpa using hja, hfa⟩

lemma filterMap_get?_gt {α β : Type} (f : α → Option β) :
    ∀ (l : List α) (k : Nat) (b : β) (i : Nat) (a0 : α),
      (l.filterMap f).get? k = some b → i ≤ k → l.get? i = some a0 → f a0 = none →
      ∃ j a, k < j ∧ l.get? j = some a ∧ f a = some b := by
  intro l
  induction l with
  | nil => intro k b i a0 h; simp at h
  | cons c t ih =>
    intro k b i a0 hget hik hi hnone
    cases hfc : f c with
    | none =>
      rw [List.filterMap_cons_none hfc] at hget
      obtain ⟨j, a, hkj, hja, hfa⟩ := filterMap_get?_ge f t k b hget
      exact ⟨j + 1, a, by omega, by simpa using hja, hfa⟩
    | some d =>
      rw [List.filterMap_cons_some hfc] at hget
      cases i with
      | zero =>
        simp only [List.get?_cons_zero, Option.some.injEq] at hi
        subst hi
        rw [hnone] at hfc
        exact absurd hfc (by simp)
      | succ i0 =>
        cases k with
        | zero => omega
        | succ j =>
          simp only [List.get?_cons_succ] at hget hi
          obtain ⟨j2, a, hkj, hja, hfa⟩ := ih j b i0 a0 hget (by omega) hi hnone
          exact ⟨j2 + 1, a, by omega, by simpa using hja, hfa⟩

/-- C4: in `analyze_location_threat` the geometry list is rebuilt as the
geometries of the filtered cones that have one and paired with the cones
positionally by `zip` (`conePairs`).  When every cone has a geometry, each
assessed pair is a cone with its own geometry.  When the cone at index `i`
lacks a geometry, the pair list is strictly shorter than the cone list (the
trailing cones receive no assessment), and every pair at index `k ≥ i` pairs
the cone at `k` with the geometry of some strictly later cone. -/
theorem C4_zip_misalignment (cones : List NHCCone) :
    ((∀ c ∈ cones, c.geometry.isSome = true) →
      (conePairs cones).length = cones.length ∧
      ∀ (k : Nat) (c : NHCCone), cones.get? k = some c →
        (conePairs cones).get? k = c.geometry.map fun g => (c, g))
    ∧ (∀ (i : Nat) (ci : NHCCone), cones.get? i = some ci → ci.geometry = none →
      (conePairs cones).length < cones.length ∧
      ∀ (k : Nat) (c : NHCCone) (p : NHCCone × Geometry), i ≤ k →
        cones.get? k = some c → (conePairs cones).get? k = some p →
        p.1 = c ∧ ∃ (j : Nat) (cj : NHCCone), k < j ∧ cones.get? j = some cj ∧
          cj.geometry = some p.2) := by
  constructor
  · intro hall
    obtain ⟨hlen, hget⟩ := filterMap_all_some_get? (fun c => c.geometry) cones hall
    have hplen : (conePairs cones).length = cones.length := by
      rw [conePairs, List.length_zip, hlen]
      omega
    refine ⟨hplen, ?_⟩
    intro k c hk
    have hsome : (c.geometry).isSome = true := by
      have : c ∈ cones := List.get?_mem hk
      exact hall c this
    obtain ⟨g, hg⟩ := Option.isSome_iff_exists.mp hsome
    have hgeoms : (cones.filterMap fun c => c.geometry).get? k = some g := by
      rw [hget k c hk, hg]
    rw [hg]
    exact (List.get?_zip_eq_some cones _ (c, g) k).mpr ⟨hk, hgeoms⟩
  · intro i ci hi hinone
    have hglen : (cones.filterMap fun c => c.geometry).length < cones.length :=
      filterMap_length_lt_of_none (fun c => c.geometry) cones i ci hi hinone
    have hplen : (conePairs cones).length < cones.length := by
      rw [conePairs, List.length_zip]
      omega
    refine ⟨hplen, ?_⟩
    intro k c p hik hk hp
    obtain ⟨hp1, hp2⟩ := (List.get?_zip_eq_some cones _ p k).mp hp
    have hc : p.1 = c := by
      rw [hk] at hp1
      exact (Option.some_inj.mp hp1).symm
    refine ⟨hc, ?_⟩
    exact filterMap_get?_gt (fun c => c.geometry) cones k p.2 i ci hp2 hik hi hinone

/-- Small geometry for the first cone of the mis-pairing scenario. -/
def gA : Geometry := { area := 1, centroid := (0, 0), containsPt := fun _ => false }

/-- Small geometry for the third cone of the mis-pairing scenario. -/
def gC : Geometry := { area := 2, centroid := (0, 0), containsPt := fun _ => false }

/-- A cone carrying its own geometry. -/
def coneA : NHCCone := { geometry := some gA }

/-- A cone with no geometry at all. -/
def coneNoGeom : NHCCone := {}

/-- Another cone carrying a geometry, listed after the geometry-less one. -/
def coneC : NHCCone := { geometry := some gC }

/-- Cone list in which the middle cone lacks a geometry. -/
def cones4 : List NHCCone := [coneA, coneNoGeom, coneC]

theorem C4_witness :
    (conePairs cones4).length < cones4.length
    ∧ ((coneNoGeom, gC).1 = coneNoGeom
        ∧ ∃ (j : Nat) (cj : NHCCone), 1 < j ∧ cones4.get? j = some cj
            ∧ cj.geometry = some (coneNoGeom, gC).2) := by
  have h := (C4_zip_misalignment cones4).2 1 coneNoGeom rfl rfl
  exact ⟨h.1, h.2 1 coneNoGeom (coneNoGeom, gC) (Nat.le_refl 1) rfl rfl⟩

lemma speedKph_nonneg (m : String) : 0 ≤ speedKph m := by
  cases h : findSpeed m with
  | none => simp [speedKph, h]
  | some n =>
    simp only [speedKph, h]
    split_ifs
    · positivity
    · positivity

/-- C9 (amended): with a position and a non-empty movement text present, the
arrival estimate is `None` exactly when the computed distance is zero (the
code's falsy-float check) or the derived speed is zero, and otherwise equals
the floor of distance over speed, where the speed comes from `speedKph`
(first "number + unit" pattern, default 15 km/h, multiplied by 1.6 whenever
the movement text contains "mph" or "knots" anywhere). -/
theorem C9_arrival_estimate_amended (hdist : ℚ × ℚ → ℚ × ℚ → ℚ)
    (cone : NHCCone) (lat lon : ℚ) (pos : ℚ × ℚ) (mv : String)
    (hpos : cone.current_position = some pos) (hmv : cone.movement = some mv)
    (hne : mv ≠ "") (hd : 0 ≤ hdist (lat, lon) pos) :
    estimate_arrival_time hdist cone lat lon =
      (if hdist (lat, lon) pos = 0 ∨ speedKph (pyLower mv) = 0 then none
       else some ⌊hdist (lat, lon) pos / speedKph (pyLower mv)⌋) := by
  simp only [estimate_arrival_time, hpos, hmv, calculate_distance]
  rw [if_neg hne]
  by_cases hz : hdist (lat, lon) pos = 0
  · rw [if_pos hz, if_pos (Or.inl hz)]
  · rw [if_neg hz]
    have hsp := speedKph_nonneg (pyLower mv)
    by_cases hs : speedKph (pyLower mv) = 0
    · rw [if_neg (by rw [hs]; exact lt_irrefl 0), if_pos (Or.inr hs)]
    · have hpos2 : 0 < speedKph (pyLower mv) := lt_of_le_of_ne hsp (Ne.symm hs)
      rw [if_pos hpos2, if_neg (by tauto)]
      congr 1
      rw [ratTrunc, if_pos (div_nonneg hd (le_of_lt hpos2))]

/-- Cone positioned exactly at the analysis target, with a parseable 10 mph
movement text. -/
def coneZeroDist : NHCCone :=
  { current_position := some (25, -77), movement := some "moving west at 10 mph" }

/-- A distance function agreeing with haversine on coincident points (distance
0) and positive elsewhere. -/
def hdistIndicator : ℚ × ℚ → ℚ × ℚ → ℚ := fun a b => if a = b then 0 else 1000

theorem C9_counterexample :
    estimate_arrival_time hdistIndicator coneZeroDist 25 (-77) = none
    ∧ coneZeroDist.current_position.isSome = true
    ∧ coneZeroDist.movement.isSome = true
    ∧ speedKph (pyLower "moving west at 10 mph") = 16
    ∧ hdistIndicator (25, -77) (25, -77) = 0
    ∧ speedKph (pyLower "east 7 km/h triumph") = 56 / 5 := by
  have hf1 : findSpeed (pyLower "moving west at 10 mph") = some 10 := rfl
  have hu1 : strContains (pyLower "moving west at 10 mph") "mph" = true := rfl
  have hf2 : findSpeed (pyLower "east 7 km/h triumph") = some 7 := rfl
  have hu2 : strContains (pyLower "east 7 km/h triumph") "mph" = true := rfl
  refine ⟨by decide, rfl, rfl, ?_, by decide, ?_⟩
  · simp [speedKph, hf1, hu1]
    norm_num
  · simp [speedKph, hf2, hu2]
    norm_num

/-- Cone with a 15 km/h movement text for the arrival-estimate witness. -/
def coneMove : NHCCone :=
  { current_position := some (10, 10), movement := some "north at 15 kph" }

/-- Constant 30 km distance function for the arrival-estimate witness. -/
def hdist30 : ℚ × ℚ → ℚ × ℚ → ℚ := fun _ _ => 30

theorem C9_witness : estimate_arrival_time hdist30 coneMove 0 0 = some 2 := by
  have h := C9_arrival_estimate_amended hdist30 coneMove 0 0 (10, 10)
    "north at 15 kph" rfl rfl (by decide) (by norm_num [hdist30])
  rw [h]
  have hf : findSpeed (pyLower "north at 15 kph") = some 15 := rfl
  have hu1 : strContains (pyLower "north at 15 kph") "mph" = false := rfl
  have hu2 : strContains (pyLower "north at 15 kph") "knots" = false := rfl
  simp only [speedKph, hf, hu1, hu2, hdist30, Bool.or_self, Bool.false_eq_true, if_false]
  norm_num

/-- Cone with neither position nor geometry, for the fail-open witness. -/
def coneBare : NHCCone := {}

theorem C5_witness :
    coneBare ∈ filter_storms_by_distance (fun _ _ => 0) [coneBare] (0, 0) 2000 :=
  (C5_relevance_filter (fun _ _ => 0) [coneBare] (0, 0) 2000).2 coneBare
    (List.Mem.head _) rfl rfl
